import Mathlib

/-!
Shallow embedding of the request admission/authorization core of the
hono-starter repository: token verification (src/lib/utils.ts), the
authentication middleware (src/middleware/auth-middleware.ts), the
role/permission middleware (src/middleware/role-permission-middleware.ts)
and the Redis-backed sliding-window rate limiter (rate limiter middleware).
Theorems below settle the frozen specification claims against these
definitions.
-/

namespace HonoStarter

/-- Decoded JWT payload, as produced by the sign calls in src/lib/utils.ts:
a subject id, an optional type marker (set to "refresh" by
generateRefreshToken, absent for access tokens), and an expiry timestamp
in unix seconds. -/
structure JwtPayload where
  sub : String
  type : Option String
  exp : Nat
deriving DecidableEq

/-- Model of a raw signed token. The payload is what verification would
decode; secret records which key the token was signed with; malformed
marks strings that are not a structurally valid signed token at all. -/
structure Token where
  payload : JwtPayload
  secret : String
  malformed : Bool
deriving DecidableEq

/-- Environment slice consumed by src/lib/utils.ts. -/
structure Env where
  JWT_SECRET : String
  REFRESH_TOKEN_SECRET : String
deriving DecidableEq

/-- Modelled external verify from hono/jwt: decoding succeeds exactly when
the token is structurally well formed, its signature matches the given
secret, and its exp claim has not passed (hono/jwt raises expiry errors
when exp is strictly in the past). Failure is the none value, standing
for the thrown error that the callers in src/lib/utils.ts catch. -/
def verify (t : Token) (secret : String) (now : Nat) : Option JwtPayload :=
  if t.malformed then none
  else if t.secret ≠ secret then none
  else if t.payload.exp < now then none
  else some t.payload

/-- verifyAccessToken from src/lib/utils.ts: verifies against JWT_SECRET
and returns null (none) on any verification error - it never throws. -/
def verifyAccessToken (env : Env) (t : Token) (now : Nat) : Option JwtPayload :=
  verify t env.JWT_SECRET now

/-- verifyRefreshToken from src/lib/utils.ts: verifies against
REFRESH_TOKEN_SECRET, additionally rejects (returns none) when the decoded
type claim is not "refresh", and returns null (none) on any error. -/
def verifyRefreshToken (env : Env) (t : Token) (now : Nat) : Option JwtPayload :=
  match verify t env.REFRESH_TOKEN_SECRET now with
  | none => none
  | some d => if d.type ≠ some "refresh" then none else some d

/-- generateAccessToken from src/lib/utils.ts: signs a payload carrying
only sub and exp (no type marker) with JWT_SECRET. -/
def generateAccessToken (env : Env) (id_user : String) (now expiresIn : Nat) : Token :=
  { payload := { sub := id_user, type := none, exp := now + expiresIn }
    secret := env.JWT_SECRET
    malformed := false }

/-- generateRefreshToken from src/lib/utils.ts: signs a payload carrying
sub, type = "refresh" and exp with REFRESH_TOKEN_SECRET. -/
def generateRefreshToken (env : Env) (id_user : String) (now expiresIn : Nat) : Token :=
  { payload := { sub := id_user, type := some "refresh", exp := now + expiresIn }
    secret := env.REFRESH_TOKEN_SECRET
    malformed := false }

/-- Prefix test on strings, the semantics of the JavaScript
String.startsWith, stated over the character lists so that it evaluates
by kernel reduction. -/
def strStartsWith (s pre : String) : Bool :=
  pre.data.isPrefixOf s.data

/-- Split a character list at every occurrence of the separator; the
semantics of the JavaScript String.split with a one-character separator. -/
def jsSplitChars (sep : Char) : List Char → List (List Char)
  | [] => [[]]
  | c :: cs =>
    let r := jsSplitChars sep cs
    if c = sep then [] :: r
    else
      match r with
      | [] => [[c]]
      | h :: t => (c :: h) :: t

/-- String.split with a one-character separator. -/
def jsSplit (sep : Char) (s : String) : List String :=
  (jsSplitChars sep s.data).map String.mk

/-- Removal of leading and trailing whitespace; the semantics of the
JavaScript String.trim on ASCII input. -/
def jsTrim (s : String) : String :=
  String.mk (((s.data.dropWhile Char.isWhitespace).reverse.dropWhile
    Char.isWhitespace).reverse)

/-- Outcome of the authentication middleware: either it responded 401
without calling next(), or it invoked next() after storing the given
jwtPayload context value (null when verification returned null). -/
inductive AuthOutcome where
  | unauthorized
  | proceed (jwtPayload : Option JwtPayload)
deriving DecidableEq

/-- authMiddleware from src/middleware/auth-middleware.ts. The decode
argument models JWT string parsing: it maps the raw token substring to the
Token it denotes (malformed strings map to a Token with malformed set).
The middleware rejects 401 when the Authorization header is absent or does
not start with "Bearer "; otherwise it calls verifyAccessToken on the
substring after the first space and stores the result - including null -
as jwtPayload, then invokes next(). The try/catch around verifyAccessToken
can only produce 401 if verifyAccessToken throws, which it never does. -/
def authMiddleware (env : Env) (decode : String → Token)
    (auth : Option String) (now : Nat) : AuthOutcome :=
  match auth with
  | none => .unauthorized
  | some a =>
    if ¬ strStartsWith a "Bearer " then .unauthorized
    else
      let token := (jsSplit ' ' a).getD 1 ""
      .proceed (verifyAccessToken env (decode token) now)

/-- Role row as selected by the middleware queries: its unique name and
the permission names reachable through its role_permissions relation. -/
structure RoleRec where
  name : String
  perms : List String
deriving DecidableEq

/-- User row as selected by the middleware queries: unique id, user_roles
(each carrying its role) and user_permissions (direct permission names). -/
structure UserRec where
  id : String
  roles : List RoleRec
  directPerms : List String
deriving DecidableEq

/-- The relational store consumed by the middleware, as a list of users. -/
def findUser (db : List UserRec) (id : String) : Option UserRec :=
  db.find? (fun u => u.id = id)

/-- Outcome of a role/permission middleware: an HTTPException with the
given status (401, 403 or 404), or next() invoked. -/
inductive MwOutcome where
  | halt (status : Nat)
  | next
deriving DecidableEq

/-- requireRole from src/middleware/role-permission-middleware.ts:
401 when no jwtPayload is set, 404 when the subject id is not in the
store, 403 when no assigned role has the required name, else next(). -/
def requireRole (roleName : String) (db : List UserRec)
    (jwtPayload : Option JwtPayload) : MwOutcome :=
  match jwtPayload with
  | none => .halt 401
  | some p =>
    match findUser db p.sub with
    | none => .halt 404
    | some user =>
      if user.roles.any (fun ur => ur.name = roleName) then .next
      else .halt 403

/-- requireAnyRole from src/middleware/role-permission-middleware.ts:
succeeds when some assigned role name is in the given list. -/
def requireAnyRole (roleNames : List String) (db : List UserRec)
    (jwtPayload : Option JwtPayload) : MwOutcome :=
  match jwtPayload with
  | none => .halt 401
  | some p =>
    match findUser db p.sub with
    | none => .halt 404
    | some user =>
      if user.roles.any (fun ur => roleNames.contains ur.name) then .next
      else .halt 403

/-- requireAllRoles from src/middleware/role-permission-middleware.ts:
succeeds when every name in the given list is among the assigned roles. -/
def requireAllRoles (roleNames : List String) (db : List UserRec)
    (jwtPayload : Option JwtPayload) : MwOutcome :=
  match jwtPayload with
  | none => .halt 401
  | some p =>
    match findUser db p.sub with
    | none => .halt 404
    | some user =>
      if roleNames.all (fun rn => (user.roles.map (fun ur => ur.name)).contains rn)
      then .next
      else .halt 403

/-- First-occurrence deduplication, the semantics of the JavaScript
spread of a Set built from an array: keeps the first occurrence of each
element in order and drops later duplicates. -/
def jsSetDedupAux (seen : List String) : List String → List String
  | [] => []
  | x :: xs =>
    if x ∈ seen then jsSetDedupAux seen xs
    else x :: jsSetDedupAux (x :: seen) xs

/-- Spread of new Set(l) in insertion order. -/
def jsSetDedup (l : List String) : List String :=
  jsSetDedupAux [] l

/-- Permission names collected from the user's roles, in query order
(the flatMap over user_roles in the permission middlewares). -/
def rolePermissions (u : UserRec) : List String :=
  u.roles.flatMap (fun r => r.perms)

/-- The merged, Set-deduplicated permission list computed by the
permission middlewares: spread of new Set(rolePermissions ++ direct). -/
def allPermissions (u : UserRec) : List String :=
  jsSetDedup (rolePermissions u ++ u.directPerms)

/-- requirePermission from src/middleware/role-permission-middleware.ts:
403 unless the required name occurs in the deduplicated permission list. -/
def requirePermission (permissionName : String) (db : List UserRec)
    (jwtPayload : Option JwtPayload) : MwOutcome :=
  match jwtPayload with
  | none => .halt 401
  | some p =>
    match findUser db p.sub with
    | none => .halt 404
    | some user =>
      if (allPermissions user).contains permissionName then .next
      else .halt 403

/-- requireAnyPermission from src/middleware/role-permission-middleware.ts. -/
def requireAnyPermission (permissionNames : List String) (db : List UserRec)
    (jwtPayload : Option JwtPayload) : MwOutcome :=
  match jwtPayload with
  | none => .halt 401
  | some p =>
    match findUser db p.sub with
    | none => .halt 404
    | some user =>
      if permissionNames.any (fun pn => (allPermissions user).contains pn) then .next
      else .halt 403

/-- requireAllPermissions from src/middleware/role-permission-middleware.ts. -/
def requireAllPermissions (permissionNames : List String) (db : List UserRec)
    (jwtPayload : Option JwtPayload) : MwOutcome :=
  match jwtPayload with
  | none => .halt 401
  | some p =>
    match findUser db p.sub with
    | none => .halt 404
    | some user =>
      if permissionNames.all (fun pn => (allPermissions user).contains pn) then .next
      else .halt 403

/-- Member of a Redis sorted set used by the rate limiter: score is the
request timestamp in milliseconds, value the timestamp-plus-random nonce
string passed to zAdd. -/
structure Entry where
  score : Int
  value : String
deriving DecidableEq

/-- Association-list lookup for the per-key state of the store. -/
def lookupAssoc {α : Type} : List (String × α) → String → Option α
  | [], _ => none
  | p :: ps, k => if p.1 = k then some p.2 else lookupAssoc ps k

/-- Association-list update, replacing the binding for k if present. -/
def updateAssoc {α : Type} (l : List (String × α)) (k : String) (v : α) :
    List (String × α) :=
  match l with
  | [] => [(k, v)]
  | p :: ps => if p.1 = k then (k, v) :: ps else p :: updateAssoc ps k v

/-- State of the shared Redis store as the rate limiter sees it: a
reachability flag (false models a connection over which every command
rejects), per-key sorted sets, and per-key TTLs set by expire. -/
structure Store where
  reachable : Bool
  data : List (String × List Entry)
  ttl : List (String × Nat)
deriving DecidableEq

/-- Sorted-set members currently recorded for a key (empty when absent). -/
def getEntries (s : Store) (k : String) : List Entry :=
  (lookupAssoc s.data k).getD []

/-- Replace the sorted set recorded for a key. -/
def setEntries (s : Store) (k : String) (es : List Entry) : Store :=
  { s with data := updateAssoc s.data k es }

/-- Model of the expire command: set the TTL recorded for a key. -/
def setTtl (s : Store) (k : String) (t : Nat) : Store :=
  { s with ttl := updateAssoc s.ttl k t }

/-- Ceiling division as computed by Math.ceil(x / k) for positive k. -/
def jsCeilDiv (x : Int) (k : Int) : Int :=
  -((-x).fdiv k)

/-- Outcome of one pass through the rate limiter middleware: the 429
handler response, or next() invoked. -/
inductive RateOutcome where
  | denied
  | nextRan
deriving DecidableEq

/-- Result of one pass through the rate limiter middleware: the outcome,
the response headers set via c.header in order, the store afterwards, and
whether the catch branch logged a store error. -/
structure RateResult where
  outcome : RateOutcome
  headers : List (String × String)
  store : Store
  loggedStoreError : Bool
deriving DecidableEq

/-- The middleware body returned by rateLimiter(options) in the rate
limiter module, for one request: maxR and windowInSeconds are the
resolved options, key the generated key, now the value of Date.now(),
nonce the random suffix zAdd would store, skp the resolved skip
condition. When the store is unreachable the first awaited command
(zRemRangeByScore) rejects, so the catch branch runs: the error is
logged and next() is invoked with no headers set. Otherwise entries with
score in the inclusive range 0..windowStart are removed, the rest are
counted, the three X-RateLimit headers are set, and the request is
denied with Retry-After (without recording it) when the count has
reached maxR, else recorded via zAdd plus expire and passed on. -/
def rateLimiterCheck (maxR windowInSeconds : Nat) (key : String)
    (now : Int) (nonce : String) (skp : Bool) (s : Store) : RateResult :=
  if skp then ⟨.nextRan, [], s, false⟩
  else if s.reachable = false then ⟨.nextRan, [], s, true⟩
  else
    let winMs : Int := (windowInSeconds : Int) * 1000
    let windowStart : Int := now - winMs
    let pruned := (getEntries s key).filter
      (fun e => !(decide (0 ≤ e.score) && decide (e.score ≤ windowStart)))
    let s1 := setEntries s key pruned
    let requestCount : Nat := pruned.length
    let hdrs := [("X-RateLimit-Limit", toString maxR),
                 ("X-RateLimit-Remaining",
                   toString (max 0 ((maxR : Int) - (requestCount : Int) - 1))),
                 ("X-RateLimit-Reset", toString (jsCeilDiv (now + winMs) 1000))]
    if maxR ≤ requestCount then
      ⟨.denied, hdrs ++ [("Retry-After", toString windowInSeconds)], s1, false⟩
    else
      let s2 := setEntries s1 key (pruned ++ [⟨now, nonce⟩])
      let s3 := setTtl s2 key windowInSeconds
      ⟨.nextRan, hdrs, s3, false⟩

/-- Entries of the key that survive pruning at time now: exactly the
filter the middleware applies before counting. -/
def liveEntries (s : Store) (key : String) (now : Int) (w : Nat) : List Entry :=
  (getEntries s key).filter
    (fun e => !(decide (0 ≤ e.score) && decide (e.score ≤ now - (w : Int) * 1000)))

/-- Run a sequence of requests (time, nonce) for one key through the
middleware with skip disabled, collecting the outcomes in order. -/
def runSeq (maxR w : Nat) (key : String) :
    List (Int × String) → Store → Store × List RateOutcome
  | [], s => (s, [])
  | r :: rs, s =>
    let res := rateLimiterCheck maxR w key r.1 r.2 false s
    let rest := runSeq maxR w key rs res.store
    (rest.1, res.outcome :: rest.2)

/-- defaultKeyGenerator from the rate limiter module. JavaScript
truthiness of the header values is explicit: an absent or empty
x-forwarded-for falls through to x-real-ip, an absent or empty x-real-ip
falls through to the "unknown" sentinel; a nonempty x-forwarded-for is
split on commas and the first element is trimmed. -/
def defaultKeyGenerator (forwarded realIp : Option String) : String :=
  let jsTruthy : Option String → Bool := fun o =>
    match o with
    | none => false
    | some v => v ≠ ""
  let ip :=
    if jsTruthy forwarded then jsTrim ((jsSplit ',' (forwarded.getD "")).headD "")
    else if jsTruthy realIp then realIp.getD ""
    else "unknown"
  "rate-limit:" ++ ip

/-- Key generator installed by rateLimiterByUser: when a user context
value is set it keys on rate-limit:user: plus the subject claim,
otherwise it falls back to defaultKeyGenerator. -/
def rateLimiterByUserKey (user : Option JwtPayload)
    (forwarded realIp : Option String) : String :=
  match user with
  | some u => "rate-limit:user:" ++ u.sub
  | none => defaultKeyGenerator forwarded realIp

/-- The three X-RateLimit response headers the middleware sets, as a
function of the resolved limit, window, current time and pruned count. -/
def rateHeaders (maxR w : Nat) (now : Int) (cnt : Nat) : List (String × String) :=
  [("X-RateLimit-Limit", toString maxR),
   ("X-RateLimit-Remaining", toString (max 0 ((maxR : Int) - (cnt : Int) - 1))),
   ("X-RateLimit-Reset", toString (jsCeilDiv (now + (w : Int) * 1000) 1000))]

/-! Helper lemmas about the Set-spread deduplication. -/

lemma mem_jsSetDedupAux (a : String) :
    ∀ (l seen : List String), a ∈ jsSetDedupAux seen l ↔ (a ∈ l ∧ a ∉ seen) := by
  intro l
  induction l with
  | nil => intro seen; simp [jsSetDedupAux]
  | cons x xs ih =>
    intro seen
    by_cases hx : x ∈ seen
    · rw [jsSetDedupAux, if_pos hx, ih]
      constructor
      · rintro ⟨h1, h2⟩; exact ⟨List.mem_cons_of_mem _ h1, h2⟩
      · rintro ⟨h1, h2⟩
        rcases List.mem_cons.mp h1 with h1 | h1
        · exact absurd (h1 ▸ hx) h2
        · exact ⟨h1, h2⟩
    · rw [jsSetDedupAux, if_neg hx]
      by_cases hax : a = x
      · subst hax
        simp [hx]
      · simp only [List.mem_cons, hax, false_or, ih, List.mem_cons]

lemma nodup_jsSetDedupAux :
    ∀ (l seen : List String), (jsSetDedupAux seen l).Nodup := by
  intro l
  induction l with
  | nil => intro seen; simp [jsSetDedupAux]
  | cons x xs ih =>
    intro seen
    by_cases hx : x ∈ seen
    · rw [jsSetDedupAux, if_pos hx]; exact ih seen
    · rw [jsSetDedupAux, if_neg hx]
      refine List.nodup_cons.mpr ⟨?_, ih (x :: seen)⟩
      intro hmem
      exact ((mem_jsSetDedupAux x xs (x :: seen)).mp hmem).2 (List.mem_cons_self x seen)

lemma mem_jsSetDedup (a : String) (l : List String) :
    a ∈ jsSetDedup l ↔ a ∈ l := by
  rw [jsSetDedup, mem_jsSetDedupAux]
  simp

lemma nodup_jsSetDedup (l : List String) : (jsSetDedup l).Nodup :=
  nodup_jsSetDedupAux l []

/-! Helper lemmas about the association-list store state. -/

lemma lookupAssoc_updateAssoc_self {α : Type} (l : List (String × α))
    (k : String) (v : α) : lookupAssoc (updateAssoc l k v) k = some v := by
  induction l with
  | nil => simp [updateAssoc, lookupAssoc]
  | cons p ps ih =>
    by_cases h : p.1 = k
    · simp [updateAssoc, h, lookupAssoc]
    · rw [updateAssoc, if_neg h, lookupAssoc, if_neg h]
      exact ih

lemma getEntries_setEntries_self (s : Store) (k : String) (es : List Entry) :
    getEntries (setEntries s k es) k = es := by
  simp [getEntries, setEntries, lookupAssoc_updateAssoc_self]

lemma reachable_setEntries (s : Store) (k : String) (es : List Entry) :
    (setEntries s k es).reachable = s.reachable := rfl

lemma reachable_setTtl (s : Store) (k : String) (t : Nat) :
    (setTtl s k t).reachable = s.reachable := rfl

lemma getEntries_setTtl (s : Store) (k k' : String) (t : Nat) :
    getEntries (setTtl s k t) k' = getEntries s k' := rfl

lemma rateLimiterCheck_reachable_eq (maxR w : Nat) (key : String) (now : Int)
    (nonce : String) (s : Store) (hr : s.reachable = true) :
    rateLimiterCheck maxR w key now nonce false s =
      (if maxR ≤ (liveEntries s key now w).length then
        ⟨.denied,
         rateHeaders maxR w now (liveEntries s key now w).length
           ++ [("Retry-After", toString w)],
         setEntries s key (liveEntries s key now w), false⟩
      else
        ⟨.nextRan,
         rateHeaders maxR w now (liveEntries s key now w).length,
         setTtl (setEntries (setEntries s key (liveEntries s key now w)) key
           ((liveEntries s key now w) ++ [⟨now, nonce⟩])) key w, false⟩) := by
  simp only [rateLimiterCheck, hr, liveEntries, rateHeaders]
  rfl

lemma rateLimiterCheck_unreachable (maxR w : Nat) (key : String) (now : Int)
    (nonce : String) (s : Store) (hr : s.reachable = false) :
    rateLimiterCheck maxR w key now nonce false s =
      ⟨.nextRan, [], s, true⟩ := by
  simp [rateLimiterCheck, hr]

lemma check_outcome_reachable (maxR w : Nat) (key : String) (now : Int)
    (nonce : String) (s : Store) (hr : s.reachable = true) :
    (rateLimiterCheck maxR w key now nonce false s).outcome =
      (if maxR ≤ (liveEntries s key now w).length then RateOutcome.denied
       else RateOutcome.nextRan) := by
  rw [rateLimiterCheck_reachable_eq maxR w key now nonce s hr]
  split <;> rfl

lemma check_store_reachable (maxR w : Nat) (key : String) (now : Int)
    (nonce : String) (s : Store) (hr : s.reachable = true) :
    (rateLimiterCheck maxR w key now nonce false s).store.reachable = true := by
  rw [rateLimiterCheck_reachable_eq maxR w key now nonce s hr]
  split
  · exact hr
  · exact hr

lemma check_entries_allowed (maxR w : Nat) (key : String) (now : Int)
    (nonce : String) (s : Store) (hr : s.reachable = true)
    (h : (liveEntries s key now w).length < maxR) :
    getEntries (rateLimiterCheck maxR w key now nonce false s).store key =
      liveEntries s key now w ++ [⟨now, nonce⟩] := by
  rw [rateLimiterCheck_reachable_eq maxR w key now nonce s hr,
    if_neg (not_le.mpr h)]
  rw [getEntries_setTtl, getEntries_setEntries_self]

lemma check_entries_denied (maxR w : Nat) (key : String) (now : Int)
    (nonce : String) (s : Store) (hr : s.reachable = true)
    (h : maxR ≤ (liveEntries s key now w).length) :
    getEntries (rateLimiterCheck maxR w key now nonce false s).store key =
      liveEntries s key now w := by
  rw [rateLimiterCheck_reachable_eq maxR w key now nonce s hr, if_pos h]
  exact getEntries_setEntries_self s key _

lemma check_headers_reachable (maxR w : Nat) (key : String) (now : Int)
    (nonce : String) (s : Store) (hr : s.reachable = true) :
    (rateLimiterCheck maxR w key now nonce false s).headers =
      rateHeaders maxR w now (liveEntries s key now w).length ++
        (if maxR ≤ (liveEntries s key now w).length
         then [("Retry-After", toString w)] else []) := by
  rw [rateLimiterCheck_reachable_eq maxR w key now nonce s hr]
  split
  · rfl
  · simp

lemma liveEntries_eq_self (s : Store) (key : String) (now : Int) (w : Nat)
    (h : ∀ e ∈ getEntries s key, 0 ≤ e.score ∧ now - (w : Int) * 1000 < e.score) :
    liveEntries s key now w = getEntries s key := by
  apply List.filter_eq_self.mpr
  intro e he
  rcases h e he with ⟨h1, h2⟩
  simp [h1, not_le.mpr h2]

lemma liveEntries_eq_nil (s : Store) (key : String) (now : Int) (w : Nat)
    (h : ∀ e ∈ getEntries s key, 0 ≤ e.score ∧ e.score ≤ now - (w : Int) * 1000) :
    liveEntries s key now w = [] := by
  simp only [liveEntries, List.filter_eq_nil_iff]
  intro e he
  rcases h e he with ⟨h1, h2⟩
  simp [h1, h2]

/-- Invariant run of the limiter: starting from a reachable store whose
entries for the key all lie strictly inside the window ending at lastT,
a sequence of requests timed inside that same window and no later than
lastT is admitted in full as long as the total count fits under maxR,
and afterwards the key holds the old entries followed by one entry per
request, in order. -/
lemma runSeq_allows (maxR w : Nat) (key : String) (lastT : Int) :
    ∀ (reqs : List (Int × String)) (s : Store),
    s.reachable = true →
    (∀ e ∈ getEntries s key, 0 ≤ e.score ∧ lastT - (w : Int) * 1000 < e.score) →
    (∀ r ∈ reqs, 0 ≤ r.1 ∧ lastT - (w : Int) * 1000 < r.1 ∧ r.1 ≤ lastT) →
    (getEntries s key).length + reqs.length ≤ maxR →
    (runSeq maxR w key reqs s).2 = List.replicate reqs.length RateOutcome.nextRan ∧
    (runSeq maxR w key reqs s).1.reachable = true ∧
    getEntries (runSeq maxR w key reqs s).1 key =
      getEntries s key ++ reqs.map (fun r => Entry.mk r.1 r.2) := by
  intro reqs
  induction reqs with
  | nil =>
    intro s hr _ _ _
    exact ⟨rfl, hr, by simp [runSeq]⟩
  | cons r rs ih =>
    intro s hr hlive hreqs hcount
    have hrreq := hreqs r (List.mem_cons_self r rs)
    have hlive' : ∀ e ∈ getEntries s key,
        0 ≤ e.score ∧ r.1 - (w : Int) * 1000 < e.score := by
      intro e he
      rcases hlive e he with ⟨h1, h2⟩
      exact ⟨h1, lt_of_le_of_lt (sub_le_sub_right hrreq.2.2 _) h2⟩
    have hself := liveEntries_eq_self s key r.1 w hlive'
    have hlen : (liveEntries s key r.1 w).length < maxR := by
      rw [hself]
      simp only [List.length_cons] at hcount
      omega
    have hout := check_outcome_reachable maxR w key r.1 r.2 s hr
    rw [if_neg (not_le.mpr hlen)] at hout
    have hst := check_store_reachable maxR w key r.1 r.2 s hr
    have hent := check_entries_allowed maxR w key r.1 r.2 s hr hlen
    rw [hself] at hent
    have hlive2 : ∀ e ∈ getEntries (rateLimiterCheck maxR w key r.1 r.2 false s).store key,
        0 ≤ e.score ∧ lastT - (w : Int) * 1000 < e.score := by
      intro e he
      rw [hent] at he
      rcases List.mem_append.mp he with he | he
      · exact hlive e he
      · have heq : e = Entry.mk r.1 r.2 := by simpa using he
        subst heq
        exact ⟨hrreq.1, hrreq.2.1⟩
    have hcount2 :
        (getEntries (rateLimiterCheck maxR w key r.1 r.2 false s).store key).length
          + rs.length ≤ maxR := by
      rw [hent]
      simp only [List.length_append, List.length_singleton, List.length_cons,
        List.length_nil] at hcount ⊢
      omega
    have ihres := ih (rateLimiterCheck maxR w key r.1 r.2 false s).store hst hlive2
      (fun r' hr' => hreqs r' (List.mem_cons_of_mem _ hr')) hcount2
    refine ⟨?_, ?_, ?_⟩
    · simp only [runSeq, List.length_cons, List.replicate_succ]
      rw [hout, ihres.1]
    · simp only [runSeq]
      exact ihres.2.1
    · simp only [runSeq, List.map_cons]
      rw [ihres.2.2, hent]
      simp [List.append_assoc]

/-- C1: evaluation of authMiddleware at the failing input. An absent
Authorization header or one without the Bearer shape is rejected 401
without next(), as the claim states; but a Bearer header carrying a
token that fails verification (here a malformed token string) is NOT
rejected: the middleware stores a null jwtPayload and invokes next(),
so downstream stages and the protected operation run. The catch branch
that would return 401 is unreachable because verifyAccessToken catches
internally and returns null instead of throwing. -/
theorem authMiddleware_invalid_token_runs_downstream :
    authMiddleware ⟨"access-secret", "refresh-secret"⟩
        (fun _ => ⟨⟨"", none, 0⟩, "", true⟩) none 0 = AuthOutcome.unauthorized ∧
    authMiddleware ⟨"access-secret", "refresh-secret"⟩
        (fun _ => ⟨⟨"", none, 0⟩, "", true⟩) (some "Basic abc") 0 =
      AuthOutcome.unauthorized ∧
    authMiddleware ⟨"access-secret", "refresh-secret"⟩
        (fun _ => ⟨⟨"", none, 0⟩, "", true⟩) (some "Bearer not.a.valid.jwt") 0 =
      AuthOutcome.proceed none ∧
    AuthOutcome.proceed none ≠ AuthOutcome.unauthorized := by
  refine ⟨rfl, ?_, by decide, by simp⟩
  have h : strStartsWith "Basic abc" "Bearer " = false := by decide
  simp [authMiddleware, h]

/-- C2 counterexample: with valid claims for a subject that is not in the
store, requireRole responds 404 (User not found), not 403 as the claim
states. -/
theorem subjectNotFound_403_counterexample :
    requireRole "admin" [] (some ⟨"ghost", none, 0⟩) = MwOutcome.halt 404 ∧
    requireRole "admin" [] (some ⟨"ghost", none, 0⟩) ≠ MwOutcome.halt 403 := by
  exact ⟨rfl, by decide⟩

/-- C2 amended: for every request bearing valid claims whose subject id
does not exist in the relational store, each of the six authorization
middlewares rejects the request with status 404 (Not Found). -/
theorem subjectNotFound_yields_404 (db : List UserRec) (p : JwtPayload)
    (h : findUser db p.sub = none) (rn pn : String) (rns pns : List String) :
    requireRole rn db (some p) = MwOutcome.halt 404 ∧
    requireAnyRole rns db (some p) = MwOutcome.halt 404 ∧
    requireAllRoles rns db (some p) = MwOutcome.halt 404 ∧
    requirePermission pn db (some p) = MwOutcome.halt 404 ∧
    requireAnyPermission pns db (some p) = MwOutcome.halt 404 ∧
    requireAllPermissions pns db (some p) = MwOutcome.halt 404 := by
  simp [requireRole, requireAnyRole, requireAllRoles, requirePermission,
    requireAnyPermission, requireAllPermissions, h]

/-- C2 witness: the amended statement evaluated at a concrete empty store
and a stale subject. -/
theorem subjectNotFound_yields_404_witness :
    requireRole "admin" [] (some ⟨"ghost", none, 0⟩) = MwOutcome.halt 404 ∧
    requirePermission "post.publish" [] (some ⟨"ghost", none, 0⟩) =
      MwOutcome.halt 404 := by
  have h := subjectNotFound_yields_404 [] ⟨"ghost", none, 0⟩ rfl
    "admin" "post.publish" [] []
  exact ⟨h.1, h.2.2.2.1⟩

/-- C4: for a user found in the store, requirePermission succeeds exactly
on members of the computed permission list; that list is the
deduplicated union of role-derived and direct permissions, contains no
duplicates, and each member occurs in it exactly once. -/
theorem effectivePermissions_dedup_spec (db : List UserRec) (p : JwtPayload)
    (name : String) (u : UserRec) (h : findUser db p.sub = some u) :
    (requirePermission name db (some p) = MwOutcome.next ↔
      name ∈ allPermissions u) ∧
    (name ∈ allPermissions u ↔
      (name ∈ rolePermissions u ∨ name ∈ u.directPerms)) ∧
    (allPermissions u).Nodup ∧
    (name ∈ allPermissions u → (allPermissions u).count name = 1) := by
  refine ⟨?_, ?_, nodup_jsSetDedup _, ?_⟩
  · by_cases hc : name ∈ allPermissions u
    · simp [requirePermission, h, hc]
    · simp [requirePermission, h, hc]
  · rw [allPermissions, mem_jsSetDedup, List.mem_append]
  · intro hm
    exact List.count_eq_one_of_mem (nodup_jsSetDedup _) hm

/-- C4 witness: a subject holding report.view through two roles and as a
direct grant; the effective list states it exactly once, and
requirePermission on it admits the request. -/
theorem effectivePermissions_dedup_spec_witness :
    requirePermission "report.view"
        [⟨"u1", [⟨"analyst", ["report.view"]⟩,
                 ⟨"editor", ["report.view", "post.publish"]⟩],
          ["report.view"]⟩]
        (some ⟨"u1", none, 0⟩) = MwOutcome.next ∧
    (allPermissions
        ⟨"u1", [⟨"analyst", ["report.view"]⟩,
                ⟨"editor", ["report.view", "post.publish"]⟩],
          ["report.view"]⟩).count "report.view" = 1 := by
  have h := effectivePermissions_dedup_spec
    [⟨"u1", [⟨"analyst", ["report.view"]⟩,
             ⟨"editor", ["report.view", "post.publish"]⟩],
      ["report.view"]⟩]
    ⟨"u1", none, 0⟩ "report.view"
    ⟨"u1", [⟨"analyst", ["report.view"]⟩,
            ⟨"editor", ["report.view", "post.publish"]⟩],
      ["report.view"]⟩ rfl
  exact ⟨h.1.mpr (by decide), h.2.2.2 (by decide)⟩

/-- C6: with valid claims for an existing subject, requireAllRoles on the
empty list admits the request, and requireAnyRole on the empty list
responds 403, whatever roles the subject holds. -/
theorem emptyRoleList_vacuous (db : List UserRec) (p : JwtPayload)
    (u : UserRec) (h : findUser db p.sub = some u) :
    requireAllRoles [] db (some p) = MwOutcome.next ∧
    requireAnyRole [] db (some p) = MwOutcome.halt 403 := by
  simp [requireAllRoles, requireAnyRole, h]

/-- C6 witness: the statement evaluated for a subject that does hold a
role, so the outcomes are visibly independent of the role set. -/
theorem emptyRoleList_vacuous_witness :
    requireAllRoles [] [⟨"u1", [⟨"editor", ["post.publish"]⟩], []⟩]
      (some ⟨"u1", none, 0⟩) = MwOutcome.next ∧
    requireAnyRole [] [⟨"u1", [⟨"editor", ["post.publish"]⟩], []⟩]
      (some ⟨"u1", none, 0⟩) = MwOutcome.halt 403 :=
  emptyRoleList_vacuous [⟨"u1", [⟨"editor", ["post.publish"]⟩], []⟩]
    ⟨"u1", none, 0⟩ ⟨"u1", [⟨"editor", ["post.publish"]⟩], []⟩ rfl

/-- C8: verifyRefreshToken fails exactly when the token is malformed, its
signature does not match the refresh secret, it is expired, or its
decoded type claim is not the refresh marker; consequently every token
produced by generateAccessToken is rejected by verifyRefreshToken at
every instant, in particular while still unexpired. -/
theorem verifyRefreshToken_rejects_invalid_and_wrong_kind :
    ∀ (env : Env) (t : Token) (now : Nat),
    (verifyRefreshToken env t now = none ↔
      (t.malformed = true ∨ t.secret ≠ env.REFRESH_TOKEN_SECRET ∨
       t.payload.exp < now ∨ t.payload.type ≠ some "refresh")) ∧
    (∀ (id_user : String) (issuedAt expiresIn : Nat),
      verifyRefreshToken env (generateAccessToken env id_user issuedAt expiresIn)
        now = none) := by
  intro env t now
  constructor
  · unfold verifyRefreshToken verify
    by_cases h1 : t.malformed <;>
      by_cases h2 : t.secret = env.REFRESH_TOKEN_SECRET <;>
      by_cases h3 : t.payload.exp < now <;>
      by_cases h4 : t.payload.type = some "refresh" <;>
      simp [h1, h2, h3, h4]
  · intro id_user issuedAt expiresIn
    unfold verifyRefreshToken verify generateAccessToken
    by_cases h2 : env.JWT_SECRET = env.REFRESH_TOKEN_SECRET <;>
      by_cases h3 : issuedAt + expiresIn < now <;>
      simp [h2, h3]

/-- C3 counterexample: with max = 1, window = 1s, now = 2000ms and one
recorded entry whose timestamp is exactly now minus the window (1000ms),
the count of entries with timestamp at least now minus the window is 1,
so the claim requires denial; the middleware instead prunes that entry -
the removal range is inclusive - and allows the request. -/
theorem rateLimiter_window_boundary_counterexample :
    ((getEntries (Store.mk true [("k", [Entry.mk 1000 "a"])] []) "k").filter
      (fun e => decide ((2000 : Int) - 1 * 1000 ≤ e.score))).length = 1 ∧
    ¬ ((1 : Nat) < 1) ∧
    (rateLimiterCheck 1 1 "k" 2000 "b" false
      (Store.mk true [("k", [Entry.mk 1000 "a"])] [])).outcome =
      RateOutcome.nextRan ∧
    RateOutcome.nextRan ≠ RateOutcome.denied := by decide

/-- C3 amended: with a reachable store, a check is allowed iff the count
of unexpired entries is strictly below max, where unexpired means
timestamp strictly greater than now minus the window (the boundary entry
is pruned); each allowed request appends one entry and a denial leaves
the pruned entry set unrecorded; any N requests inside one window of
their last instant, starting from an empty key, are all allowed when
N is at most max; and with N equal to max a further request inside the
same window is denied with Retry-After equal to the window in seconds
while the entry set stays unchanged. -/
theorem rateLimiter_slidingWindow_spec :
    (∀ (maxR w : Nat) (key : String) (now : Int) (nonce : String) (s : Store),
      s.reachable = true →
      (((rateLimiterCheck maxR w key now nonce false s).outcome =
          RateOutcome.nextRan ↔ (liveEntries s key now w).length < maxR) ∧
       ((liveEntries s key now w).length < maxR →
         getEntries (rateLimiterCheck maxR w key now nonce false s).store key =
           liveEntries s key now w ++ [Entry.mk now nonce]) ∧
       (maxR ≤ (liveEntries s key now w).length →
         (rateLimiterCheck maxR w key now nonce false s).outcome =
           RateOutcome.denied ∧
         ("Retry-After", toString w) ∈
           (rateLimiterCheck maxR w key now nonce false s).headers ∧
         getEntries (rateLimiterCheck maxR w key now nonce false s).store key =
           liveEntries s key now w))) ∧
    (∀ (maxR w : Nat) (key : String) (lastT : Int)
       (reqs : List (Int × String)) (s : Store),
      s.reachable = true → getEntries s key = [] →
      (∀ r ∈ reqs, 0 ≤ r.1 ∧ lastT - (w : Int) * 1000 < r.1 ∧ r.1 ≤ lastT) →
      reqs.length ≤ maxR →
      (runSeq maxR w key reqs s).2 =
        List.replicate reqs.length RateOutcome.nextRan) ∧
    (∀ (maxR w : Nat) (key : String) (lastT : Int)
       (reqs : List (Int × String)) (nonce : String) (s : Store),
      s.reachable = true → getEntries s key = [] →
      (∀ r ∈ reqs, 0 ≤ r.1 ∧ lastT - (w : Int) * 1000 < r.1 ∧ r.1 ≤ lastT) →
      reqs.length = maxR →
      (runSeq maxR w key reqs s).2 =
        List.replicate maxR RateOutcome.nextRan ∧
      (rateLimiterCheck maxR w key lastT nonce false
        (runSeq maxR w key reqs s).1).outcome = RateOutcome.denied ∧
      ("Retry-After", toString w) ∈
        (rateLimiterCheck maxR w key lastT nonce false
          (runSeq maxR w key reqs s).1).headers ∧
      getEntries (rateLimiterCheck maxR w key lastT nonce false
        (runSeq maxR w key reqs s).1).store key =
        getEntries (runSeq maxR w key reqs s).1 key) := by
  refine ⟨?_, ?_, ?_⟩
  · intro maxR w key now nonce s hr
    refine ⟨?_, ?_, ?_⟩
    · rw [check_outcome_reachable maxR w key now nonce s hr]
      by_cases hc : maxR ≤ (liveEntries s key now w).length
      · rw [if_pos hc]
        exact iff_of_false (by simp) (not_lt.mpr hc)
      · rw [if_neg hc]
        exact iff_of_true rfl (not_le.mp hc)
    · intro h
      exact check_entries_allowed maxR w key now nonce s hr h
    · intro h
      refine ⟨?_, ?_, check_entries_denied maxR w key now nonce s hr h⟩
      · rw [check_outcome_reachable maxR w key now nonce s hr, if_pos h]
      · rw [check_headers_reachable maxR w key now nonce s hr, if_pos h]
        simp
  · intro maxR w key lastT reqs s hr hempty hreqs hlen
    have hA := runSeq_allows maxR w key lastT reqs s hr
      (by rw [hempty]; intro e he; cases he) hreqs
      (by rw [hempty]; simpa using hlen)
    exact hA.1
  · intro maxR w key lastT reqs nonce s hr hempty hreqs hlen
    have hA := runSeq_allows maxR w key lastT reqs s hr
      (by rw [hempty]; intro e he; cases he) hreqs
      (by rw [hempty]; simp [hlen])
    obtain ⟨hout, hreach, hent⟩ := hA
    rw [hempty, List.nil_append] at hent
    have hlive1 : ∀ e ∈ getEntries (runSeq maxR w key reqs s).1 key,
        0 ≤ e.score ∧ lastT - (w : Int) * 1000 < e.score := by
      intro e he
      rw [hent] at he
      obtain ⟨r, hrm, hre⟩ := List.mem_map.mp he
      rcases hreqs r hrm with ⟨h1, h2, _⟩
      rw [← hre]
      exact ⟨h1, h2⟩
    have hself := liveEntries_eq_self (runSeq maxR w key reqs s).1 key lastT w hlive1
    have hcnt : maxR ≤
        (liveEntries (runSeq maxR w key reqs s).1 key lastT w).length := by
      rw [hself, hent]
      simp [hlen]
    refine ⟨by rw [hout, hlen], ?_, ?_, ?_⟩
    · rw [check_outcome_reachable maxR w key lastT nonce _ hreach, if_pos hcnt]
    · rw [check_headers_reachable maxR w key lastT nonce _ hreach, if_pos hcnt]
      simp
    · rw [check_entries_denied maxR w key lastT nonce _ hreach hcnt, hself]

/-- C3 witness: the denial clause applied with max = 1 and window = 60s
to one allowed request at 500ms followed by a second request at 1000ms,
inside the same window, which is denied. -/
theorem rateLimiter_slidingWindow_spec_witness :
    (runSeq 1 60 "k" [((500 : Int), "a")] (Store.mk true [] [])).2 =
      List.replicate 1 RateOutcome.nextRan ∧
    (rateLimiterCheck 1 60 "k" 1000 "b" false
      (runSeq 1 60 "k" [((500 : Int), "a")] (Store.mk true [] [])).1).outcome =
      RateOutcome.denied := by
  have h := rateLimiter_slidingWindow_spec.2.2 1 60 "k" 1000
    [((500 : Int), "a")] "b" (Store.mk true [] []) rfl rfl (by decide) rfl
  exact ⟨h.1, h.2.1⟩

/-- C5: when the store is unreachable every command rejects, the catch
branch logs the failure and the request is passed to next(): the limiter
fails open, the store state is untouched, and no error reaches the
caller. -/
theorem rateLimiter_failsOpen (maxR w : Nat) (key : String) (now : Int)
    (nonce : String) (s : Store) (h : s.reachable = false) :
    (rateLimiterCheck maxR w key now nonce false s).outcome =
      RateOutcome.nextRan ∧
    (rateLimiterCheck maxR w key now nonce false s).store = s ∧
    (rateLimiterCheck maxR w key now nonce false s).loggedStoreError = true := by
  rw [rateLimiterCheck_unreachable maxR w key now nonce s h]
  exact ⟨rfl, rfl, rfl⟩

/-- C5 witness: a concrete unreachable store lets the request through. -/
theorem rateLimiter_failsOpen_witness :
    (rateLimiterCheck 10 60 "rate-limit:1.2.3.4" 5000 "n" false
      (Store.mk false [] [])).outcome = RateOutcome.nextRan :=
  (rateLimiter_failsOpen 10 60 "rate-limit:1.2.3.4" 5000 "n"
    (Store.mk false [] []) rfl).1

/-- C7 counterexample: on a rate-limit-checked route with the store
unreachable, the middleware sets no headers at all, so the response does
not always carry X-RateLimit-Limit as the claim states. -/
theorem rateLimiter_headers_counterexample :
    (rateLimiterCheck 5 60 "k" 1000 "n" false
      (Store.mk false [] [])).headers = [] ∧
    ("X-RateLimit-Limit", "5") ∉
      (rateLimiterCheck 5 60 "k" 1000 "n" false
        (Store.mk false [] [])).headers := by decide

/-- C7 amended: whenever the store commands succeed, the response carries
exactly X-RateLimit-Limit = max, X-RateLimit-Remaining =
max(0, max - count - 1) and X-RateLimit-Reset = the second ceiling of
now + window, with Retry-After appended exactly when denying; and after
a full window has elapsed since every recorded entry, a request is
allowed with remaining = max - 1. With the store unreachable no headers
are set. -/
theorem rateLimiter_headers_spec :
    (∀ (maxR w : Nat) (key : String) (now : Int) (nonce : String) (s : Store),
      s.reachable = true →
      ((rateLimiterCheck maxR w key now nonce false s).headers =
        rateHeaders maxR w now (liveEntries s key now w).length ++
          (if maxR ≤ (liveEntries s key now w).length
           then [("Retry-After", toString w)] else []) ∧
       (("Retry-After", toString w) ∈
          (rateLimiterCheck maxR w key now nonce false s).headers ↔
        (rateLimiterCheck maxR w key now nonce false s).outcome =
          RateOutcome.denied))) ∧
    (∀ (maxR w : Nat) (key : String) (now : Int) (nonce : String) (s : Store),
      s.reachable = true → 1 ≤ maxR →
      (∀ e ∈ getEntries s key, 0 ≤ e.score ∧ e.score ≤ now - (w : Int) * 1000) →
      (rateLimiterCheck maxR w key now nonce false s).outcome =
        RateOutcome.nextRan ∧
      ("X-RateLimit-Remaining", toString ((maxR : Int) - 1)) ∈
        (rateLimiterCheck maxR w key now nonce false s).headers) := by
  constructor
  · intro maxR w key now nonce s hr
    refine ⟨check_headers_reachable maxR w key now nonce s hr, ?_⟩
    by_cases hc : maxR ≤ (liveEntries s key now w).length
    · rw [check_headers_reachable maxR w key now nonce s hr, if_pos hc,
        check_outcome_reachable maxR w key now nonce s hr, if_pos hc]
      simp
    · rw [check_headers_reachable maxR w key now nonce s hr, if_neg hc,
        check_outcome_reachable maxR w key now nonce s hr, if_neg hc]
      apply iff_of_false
      · intro hm
        simp only [rateHeaders, List.append_nil, List.mem_cons,
          List.not_mem_nil, or_false, Prod.mk.injEq] at hm
        rcases hm with ⟨h', _⟩ | ⟨h', _⟩ | ⟨h', _⟩ <;> revert h' <;> decide
      · simp
  · intro maxR w key now nonce s hr hmax hold
    have hnil := liveEntries_eq_nil s key now w hold
    have hcnt : ¬ maxR ≤ (liveEntries s key now w).length := by
      rw [hnil]
      simp only [List.length_nil]
      omega
    constructor
    · rw [check_outcome_reachable maxR w key now nonce s hr, if_neg hcnt]
    · rw [check_headers_reachable maxR w key now nonce s hr, if_neg hcnt,
        List.append_nil, hnil]
      have h1 : (0 : Int) ≤ (maxR : Int) - 1 := by
        have : (1 : Int) ≤ (maxR : Int) := by exact_mod_cast hmax
        omega
      simp only [rateHeaders, List.length_nil, Nat.cast_zero, sub_zero]
      rw [max_eq_right h1]
      simp

/-- C7 witness: the window-elapse clause at max = 10, window = 60s, one
entry recorded 65 seconds before now: the request is allowed and the
remaining header reads max - 1. -/
theorem rateLimiter_headers_spec_witness :
    (rateLimiterCheck 10 60 "k" 70000 "n" false
      (Store.mk true [("k", [Entry.mk 5000 "a"])] [])).outcome =
      RateOutcome.nextRan ∧
    ("X-RateLimit-Remaining", toString ((10 : Int) - 1)) ∈
      (rateLimiterCheck 10 60 "k" 70000 "n" false
        (Store.mk true [("k", [Entry.mk 5000 "a"])] [])).headers :=
  rateLimiter_headers_spec.2 10 60 "k" 70000 "n"
    (Store.mk true [("k", [Entry.mk 5000 "a"])] []) rfl (by decide) (by decide)

/-- C9 counterexample: for the authenticated variant the stored key is
rate-limit:user: followed by the subject id, not rate-limit: followed by
the subject id as the claim states. -/
theorem rateLimitKey_user_counterexample :
    rateLimiterByUserKey (some ⟨"42", none, 0⟩) none none =
      "rate-limit:user:42" ∧
    rateLimiterByUserKey (some ⟨"42", none, 0⟩) none none ≠
      "rate-limit:" ++ "42" := by decide

/-- C9 amended: the default key is rate-limit: plus the trimmed first
comma-segment of a nonempty forwarded-for header, else the nonempty
x-real-ip value, else the literal unknown sentinel (shared by all
sentinel callers); the authenticated variant keys on rate-limit:user:
plus the verified subject id. -/
theorem rateLimitKey_spec :
    (∀ (fwd : String) (realIp : Option String), fwd ≠ "" →
      defaultKeyGenerator (some fwd) realIp =
        "rate-limit:" ++ jsTrim ((jsSplit ',' fwd).headD "")) ∧
    (∀ (realIp : String), realIp ≠ "" →
      defaultKeyGenerator none (some realIp) = "rate-limit:" ++ realIp ∧
      defaultKeyGenerator (some "") (some realIp) = "rate-limit:" ++ realIp) ∧
    (defaultKeyGenerator none none = "rate-limit:unknown" ∧
     defaultKeyGenerator (some "") none = "rate-limit:unknown" ∧
     defaultKeyGenerator none (some "") = "rate-limit:unknown") ∧
    (∀ (u : JwtPayload) (f r : Option String),
      rateLimiterByUserKey (some u) f r = "rate-limit:user:" ++ u.sub) := by
  refine ⟨?_, ?_, ⟨rfl, rfl, rfl⟩, fun u f r => rfl⟩
  · intro fwd realIp h
    simp [defaultKeyGenerator, h]
  · intro realIp h
    constructor <;> simp [defaultKeyGenerator, h]

/-- C9 witness: a forwarded-for list keys on its first address; an
authenticated caller keys on its subject id under the user segment. -/
theorem rateLimitKey_spec_witness :
    defaultKeyGenerator (some "1.2.3.4, 5.6.7.8") (some "9.9.9.9") =
      "rate-limit:1.2.3.4" ∧
    rateLimiterByUserKey (some ⟨"acct-7", none, 0⟩) none none =
      "rate-limit:user:acct-7" := by
  have h1 := rateLimitKey_spec.1 "1.2.3.4, 5.6.7.8" (some "9.9.9.9") (by decide)
  have h2 := rateLimitKey_spec.2.2.2 ⟨"acct-7", none, 0⟩ none none
  exact ⟨h1.trans (by decide), h2⟩

/-- C10: with no authenticated user set in the context, the per-user
key generator computes exactly the default address-based key, so
unauthenticated callers share the per-address or sentinel bucket. -/
theorem rateLimiterByUser_falls_back (f r : Option String) :
    rateLimiterByUserKey none f r = defaultKeyGenerator f r := rfl

end HonoStarter
